import Mathlib

/-!
Verification of the trace-graph core of this repository: the node/registry
data model of `autogen/trace/nodes.py` and the feedback propagators of
`autogen/trace/propagators/propagators.py` and
`autogen/trace/propagators/node_propagator.py`, as a shallow embedding.

Mutable Python objects are embedded as records in an explicit heap; every
operation that can raise (`assert`, `list.remove`, `int(...)`) returns an
`Except` value that carries the heap as it stands at the moment of the
raise, so that "fails and leaves the graph unchanged" style properties can
be stated exactly.
-/

/-- The raw Python values a `Node` may wrap, as distinguished by the
`isinstance` checks in `Node.__init__` (str, dict, and the rejected int and
list cases). The dict/list payloads are irrelevant to every claim, so they
are not modelled further. -/
inductive PyVal where
  | pystr (s : String)
  | pydict
  | pyint (n : Int)
  | pylist
deriving DecidableEq, Repr, Inhabited

/-- The `value` argument of the node constructors: either a raw Python
value or an existing node (the copy-constructor branch of
`AbstractNode.__init__`). -/
inductive InitValue where
  | val (v : PyVal)
  | node (vid : Nat)
deriving DecidableEq, Repr

/-- The mutable fields of one node object (`AbstractNode` / `Node` /
`MessageNode` in `nodes.py`): `_name`, `_level`, `_parents`, `_children`,
`_data`, `trainable`, and the `MessageNode` extras `_mapping`, `_args`,
`_kwargs` (argument nodes by heap index). -/
structure NodeRec where
  name : String
  level : Nat
  parents : List Nat
  children : List Nat
  data : PyVal
  trainable : Bool
  mapping : Option String
  margs : List Nat
  mkwargs : List Nat
deriving DecidableEq, Repr, Inhabited

/-- The global `Registry` (`GRAPH` in `nodes.py`): `_nodes` is a dict from
name to node (insertion-ordered association list), `_levels` is a
`defaultdict(list)` from level to the nodes at that level. -/
structure Registry where
  nodes : List (String × Nat)
  levels : List (Nat × List Nat)
deriving DecidableEq, Repr

/-- The whole mutable state: the Python heap of node objects (a node's id is
its index) together with the global registry. -/
structure GraphState where
  heap : List NodeRec
  reg : Registry
deriving DecidableEq, Repr

def emptyState : GraphState := ⟨[], ⟨[], []⟩⟩

/-- Read a node object from the heap (all ids used by the claims are created
by the constructors and hence in range). -/
def getNode (s : GraphState) (i : Nat) : NodeRec := s.heap.getD i default

def setNode (s : GraphState) (i : Nat) (r : NodeRec) : GraphState :=
  { s with heap := s.heap.set i r }

/-- Result of one Python call: either a value plus the heap afterwards, or
the exception message plus the heap at the moment of the raise. -/
abbrev Res (α : Type) := Except (String × GraphState) (α × GraphState)

instance {ε α : Type} [DecidableEq ε] [DecidableEq α] : DecidableEq (Except ε α) := fun x y =>
  match x, y with
  | .ok a, .ok b =>
    if h : a = b then .isTrue (congrArg Except.ok h)
    else .isFalse (fun hh => h (Except.ok.inj hh))
  | .error a, .error b =>
    if h : a = b then .isTrue (congrArg Except.error h)
    else .isFalse (fun hh => h (Except.error.inj hh))
  | .ok _, .error _ => .isFalse (fun hh => Except.noConfusion hh)
  | .error _, .ok _ => .isFalse (fun hh => Except.noConfusion hh)

/-- Python dict assignment `d[k] = v`: overwrite in place if the key exists,
else append a new entry. -/
def dictSet (d : List (String × Nat)) (k : String) (v : Nat) : List (String × Nat) :=
  if (d.lookup k).isSome then d.map (fun p => if p.1 = k then (p.1, v) else p)
  else d ++ [(k, v)]

/-- `defaultdict(list)` read `d[k]`: returns the stored bucket, creating an
empty bucket (and thus a new key) when the key is absent. -/
def ddGet (d : List (Nat × List Nat)) (k : Nat) : List (Nat × List Nat) × List Nat :=
  match d.lookup k with
  | some b => (d, b)
  | none => (d ++ [(k, [])], [])

/-- Replace the bucket stored at an existing key of a `defaultdict(list)`. -/
def ddSet (d : List (Nat × List Nat)) (k : Nat) (b : List Nat) : List (Nat × List Nat) :=
  d.map (fun p => if p.1 = k then (p.1, b) else p)

/-- `defaultdict(list)` call `d[k].append(v)`. -/
def ddAppend (d : List (Nat × List Nat)) (k : Nat) (v : Nat) : List (Nat × List Nat) :=
  let (d1, b) := ddGet d k
  ddSet d1 k (b ++ [v])

/-- Python `str.split` on a single-character separator, over the character
list (splitting at every occurrence, keeping empty pieces, and returning
one empty piece for the empty string — exactly Python's semantics). -/
def splitChars (sep : Char) : List Char → List (List Char)
  | [] => [[]]
  | c :: cs =>
    let r := splitChars sep cs
    if c == sep then [] :: r
    else
      match r with
      | h :: t => (c :: h) :: t
      | [] => [[c]]

/-- Python `s.split(':')` (used by `Registry.register` on node names). -/
def pySplit (sep : Char) (s : String) : List String :=
  (splitChars sep s.toList).map (fun l => String.mk l)

/-- Python `int(s)` for the non-negative all-digit strings that node-name
suffixes are (`register` only ever parses suffixes it or the constructors
wrote, i.e. decimal numerals); `none` models the `ValueError` of `int()`
on anything else. -/
def pyParseNat (s : String) : Option Nat :=
  if s.toList ≠ [] ∧ s.toList.all (fun c => c.isDigit) then
    some (s.toList.foldl (fun a c => a * 10 + (c.toNat - 48)) 0)
  else none

/-- The check `all([len(GRAPH._levels[i]) > 0 for i in range(len(GRAPH._levels))])`
of `_update_level`: iterates `i` over the number of keys, where each access
`GRAPH._levels[i]` is a `defaultdict` access that creates missing keys. The
list comprehension evaluates every index, threading those mutations. -/
def checkLevels (d : List (Nat × List Nat)) (n : Nat) : List (Nat × List Nat) × Bool :=
  (List.range n).foldl
    (fun acc i =>
      let (d1, b) := ddGet acc.1 i
      (d1, acc.2 && !b.isEmpty))
    (d, true)

/-- `AbstractNode._update_level(self, new_level)`: moves `self` between the
registry's level buckets. Note the source never assigns `self._level` —
only the buckets move. `list.remove` raises `ValueError` when the element
is absent. -/
def update_level (s : GraphState) (selfId newLevel : Nat) : Res Unit :=
  let lv := (getNode s selfId).level
  match (s.reg.levels.lookup lv) with
  | none =>
    -- `GRAPH._levels[self._level]` creates the key, then `.remove` raises.
    .error ("ValueError: list.remove(x): x not in list",
      { s with reg := { s.reg with levels := s.reg.levels ++ [(lv, [])] } })
  | some bucket =>
    if selfId ∈ bucket then
      let d1 := ddSet s.reg.levels lv (bucket.erase selfId)
      let d2 := ddAppend d1 newLevel selfId
      let (d3, ok) := checkLevels d2 d2.length
      let s3 := { s with reg := { s.reg with levels := d3 } }
      if ok then .ok ((), s3) else .error ("Some levels are empty.", s3)
    else
      .error ("ValueError: list.remove(x): x not in list", s)

/-- `AbstractNode.add_child(self, child)`: asserts `self not in child.parents`,
appends `self` to `child._parents`, asserts `child not in self.children`,
appends `child` to `self._children`, then recomputes the level bucket via
`_update_level(max(self._level, child._level + 1))`. Each mutation before a
failing assert persists, exactly as in Python. -/
def add_child (s : GraphState) (selfId childId : Nat) : Res Unit :=
  if selfId ∈ (getNode s childId).parents then
    .error ("AssertionError: already a parent", s)
  else
    let child := getNode s childId
    let s1 := setNode s childId { child with parents := child.parents ++ [selfId] }
    if childId ∈ (getNode s1 selfId).children then
      .error ("AssertionError: already a child", s1)
    else
      let self1 := getNode s1 selfId
      let s2 := setNode s1 selfId { self1 with children := self1.children ++ [childId] }
      update_level s2 selfId (max (getNode s2 selfId).level ((getNode s2 childId).level + 1))

/-- Second half of `Registry.register`: `self._nodes[node.name] = node;`
`self._levels[node._level].append(node)` (run after any renaming). -/
def storeNode (s : GraphState) (id : Nat) : Res Unit :=
  let node := getNode s id
  let s1 := { s with reg := { s.reg with nodes := dictSet s.reg.nodes node.name id } }
  let s2 := { s1 with reg := { s1.reg with levels := ddAppend s1.reg.levels node.level id } }
  .ok ((), s2)

/-- `Registry.register(node)`: asserts the name splits into exactly two
parts on `':'`; on a name collision replaces the node's name by
`base + ':' + str(int(suffix) + 1)` (a single increment); then stores the
node by (possibly new) name — overwriting any entry already there — and
appends it to its level's bucket. -/
def register (s : GraphState) (id : Nat) : Res Unit :=
  let node := getNode s id
  if (pySplit ':' node.name).length = 2 then
    if (s.reg.nodes.lookup node.name).isSome then
      match pySplit ':' node.name with
      | [base, suf] =>
        match pyParseNat suf with
        | some k =>
          let s1 := setNode s id { node with name := base ++ ":" ++ toString (k + 1) }
          storeNode s1 id
        | none => .error ("ValueError: invalid literal for int()", s)
      | _ => .error ("unreachable", s)
    else
      storeNode s id
  else
    .error ("AssertionError: name format", s)

/-- The name `AbstractNode.__init__` gives the fresh node before
registration: `str(type(value).__name__) + ':0'` when no name is supplied,
`name + ':0'` otherwise — except that for a `Node` value the copy
constructor overwrites it with the source node's name. -/
def initName (s : GraphState) (value : InitValue) (name : Option String) : String :=
  match value with
  | .node vid => (getNode s vid).name
  | .val v =>
    let base := match name with
      | some n => n
      | none =>
        match v with
        | .pystr _ => "str"
        | .pydict => "dict"
        | .pyint _ => "int"
        | .pylist => "list"
    base ++ ":0"

/-- The `_data` stored by `AbstractNode.__init__`: a deep copy of the source
node's data in the copy-constructor branch, the raw value otherwise. -/
def initData (s : GraphState) (value : InitValue) : PyVal :=
  match value with
  | .node vid => (getNode s vid).data
  | .val v => v

/-- `AbstractNode.__init__`: creates the node object with empty `_parents`
and `_children` and `_level = 0`, then calls `GRAPH.register(self)`.
Returns the new node's heap id. -/
def abstractNodeInit (s : GraphState) (value : InitValue) (name : Option String) : Res Nat :=
  let id := s.heap.length
  let r0 : NodeRec :=
    { name := initName s value name, level := 0, parents := [], children := [],
      data := initData s value, trainable := false, mapping := none,
      margs := [], mkwargs := [] }
  let s1 := { s with heap := s.heap ++ [r0] }
  match register s1 id with
  | .ok (_, s2) => .ok (id, s2)
  | .error e => .error e

/-- Whether a value passes the `assert isinstance(value, str) or
isinstance(value, dict) or isinstance(value, Node)` of `Node.__init__`. -/
def isValidNodeValue : InitValue → Bool
  | .val (.pystr _) => true
  | .val .pydict => true
  | .node _ => true
  | _ => false

/-- `Node.__init__`: asserts the value is a str, dict or Node (before any
registration), then runs `AbstractNode.__init__` and sets `trainable`. -/
def nodeInit (s : GraphState) (value : InitValue) (name : Option String)
    (trainable : Bool) : Res Nat :=
  if isValidNodeValue value then
    match abstractNodeInit s value name with
    | .ok (id, s1) =>
      let n1 := getNode s1 id
      .ok (id, setNode s1 id { n1 with trainable := trainable })
    | .error e => .error e
  else
    .error ("AssertionError: Value must be a string, a dict, or a Node.", s)

/-- `ParameterNode.__init__`: a `Node` with `trainable=True`. -/
def parameterNodeInit (s : GraphState) (value : InitValue) (name : Option String) : Res Nat :=
  nodeInit s value name true

/-- The loop of `MessageNode.__init__` adding every argument as a child. -/
def addChildren (s : GraphState) (selfId : Nat) : List Nat → Res Unit
  | [] => .ok ((), s)
  | c :: cs =>
    match add_child s selfId c with
    | .ok (_, s1) => addChildren s1 selfId cs
    | .error e => .error e

/-- `MessageNode.__init__(value, mapping, args, kwargs)`: runs
`Node.__init__`, records the mapping and the argument nodes, then calls
`self.add_child(v)` for every positional and keyword argument in order. -/
def messageNodeInit (s : GraphState) (value : InitValue) (mapping : String)
    (args : List Nat) (kwargVals : List Nat) (name : Option String) : Res Nat :=
  match nodeInit s value name false with
  | .ok (id, s1) =>
    let n1 := getNode s1 id
    let s2 := setNode s1 id { n1 with mapping := some mapping, margs := args, mkwargs := kwargVals }
    match addChildren s2 id (args ++ kwargVals) with
    | .ok (_, s3) => .ok (id, s3)
    | .error e => .error e
  | .error e => .error e

example : (nodeInit emptyState (.val (.pystr "h")) (some "a") false).isOk = true := by decide

/-! ### Concrete construction scenarios used by the graph-topology claims -/

/-- Helper to read the error message of a call result. -/
def resErrMsg {α : Type} : Res α → Option String
  | .error (m, _) => some m
  | .ok _ => none

/-- Building `c = f(a)`: a leaf `a` and an operation node `c` with the
single argument `a` (the smallest graph with one consumer→argument edge). -/
def oneEdgeBuild : Res Nat :=
  match nodeInit emptyState (.val (.pystr "v")) (some "a") false with
  | .ok (_, s1) => messageNodeInit s1 (.val (.pystr "o")) "[f] op" [0] [] (some "c")
  | .error e => .error e

/-- The state after `oneEdgeBuild` (on error, the state at the raise). -/
def oneEdgeState : GraphState :=
  match oneEdgeBuild with
  | .ok (_, s) => s
  | .error (_, s) => s

/-- Building `c = add(a, b)`: two leaves and an operation node with two
positional arguments, as in the spec's broadcast example. -/
def twoArgBuild : Res Nat :=
  match nodeInit emptyState (.val (.pystr "v")) (some "a") false with
  | .ok (_, s1) =>
    match nodeInit s1 (.val (.pystr "w")) (some "b") false with
    | .ok (_, s2) => messageNodeInit s2 (.val (.pystr "o")) "[add] op" [0, 1] [] (some "c")
    | .error e => .error e
  | .error e => .error e

/-- Two leaves `a`, `b`, then the self-parenting call `a.add_child(a)`. -/
def selfEdgeBuild : Res Unit :=
  match nodeInit emptyState (.val (.pystr "v")) (some "a") false with
  | .ok (a, s1) =>
    match nodeInit s1 (.val (.pystr "w")) (some "b") false with
    | .ok (_, s2) => add_child s2 a a
    | .error e => .error e
  | .error e => .error e

/-- The state after `selfEdgeBuild`. -/
def selfEdgeState : GraphState :=
  match selfEdgeBuild with
  | .ok (_, s) => s
  | .error (_, s) => s

/-- A single leaf `a`, then `a.add_child(a)` (the level-0 bucket becomes
empty, so the bucket check fires — but only after the edge was recorded). -/
def selfEdgeAloneBuild : Res Unit :=
  match nodeInit emptyState (.val (.pystr "v")) (some "a") false with
  | .ok (a, s1) => add_child s1 a a
  | .error e => .error e

/-- The state at the end of `selfEdgeAloneBuild`. -/
def selfEdgeAloneState : GraphState :=
  match selfEdgeAloneBuild with
  | .ok (_, s) => s
  | .error (_, s) => s

/-- Three `Node` constructions with the same base name `"x"`. -/
def threeXBuild : Res Nat :=
  match nodeInit emptyState (.val .pydict) (some "x") false with
  | .ok (_, s1) =>
    match nodeInit s1 (.val .pydict) (some "x") false with
    | .ok (_, s2) => nodeInit s2 (.val .pydict) (some "x") false
    | .error e => .error e
  | .error e => .error e

/-- The state after `threeXBuild`. -/
def threeXState : GraphState :=
  match threeXBuild with
  | .ok (_, s) => s
  | .error (_, s) => s

/-- C3: the claim "after every successful construction step every
consumer→argument edge satisfies parent.level > child.level" fails on the
code: `_update_level` moves the registry buckets but never assigns
`self._level`, so after the successful construction of `c = f(a)` the edge
`c → a` has `c.level = 0 = a.level`. (For the same reason, constructing an
operation node with a second argument even raises `ValueError`: the second
`_update_level` call tries to remove `c` from the level-0 bucket it already
left.) -/
theorem c3_level_monotonicity_violated :
    oneEdgeBuild = .ok (1, oneEdgeState) ∧
    1 ∈ (getNode oneEdgeState 0).parents ∧
    0 ∈ (getNode oneEdgeState 1).children ∧
    (getNode oneEdgeState 1).level = 0 ∧
    (getNode oneEdgeState 0).level = 0 ∧
    ¬ (getNode oneEdgeState 0).level < (getNode oneEdgeState 1).level ∧
    resErrMsg twoArgBuild = some "ValueError: list.remove(x): x not in list" := by
  decide

/-- C4: the claim "n.add_child(n) fails immediately and afterwards n is in
neither its own parents nor its own children" fails on the code: with a
second node sharing level 0, `a.add_child(a)` succeeds outright and records
`a` as its own parent and its own child (a cycle); even when `a` is alone
(so the bucket check raises), the self-edge has already been recorded when
the exception fires. -/
theorem c4_self_parenting_not_rejected :
    selfEdgeBuild = .ok ((), selfEdgeState) ∧
    0 ∈ (getNode selfEdgeState 0).parents ∧
    0 ∈ (getNode selfEdgeState 0).children ∧
    resErrMsg selfEdgeAloneBuild = some "Some levels are empty." ∧
    0 ∈ (getNode selfEdgeAloneState 0).parents ∧
    0 ∈ (getNode selfEdgeAloneState 0).children := by
  decide

/-- C5 counterexample: registering three nodes with base name `"x"` does
not keep extending the suffix. The third node's name `"x:0"` collides, is
incremented once to `"x:1"`, and is stored there, overwriting the second
node's registry entry: after three registrations the registry holds only
two entries, and `"x:1"` maps to node 2, no longer to node 1. -/
theorem c5_third_registration_overwrites :
    threeXBuild = .ok (2, threeXState) ∧
    threeXState.reg.nodes = [("x:0", 0), ("x:1", 2)] ∧
    (getNode threeXState 1).name = "x:1" ∧
    threeXState.reg.nodes.lookup "x:1" = some 2 := by
  decide

/-- C6: calling `p.add_child(c)` when `p` is already a parent of `c` fails
on the very first assert, before any mutation, so the returned state is
exactly the input state: every adjacency list, level, and registry bucket
is unchanged. -/
theorem c6_duplicate_edge_rejected_unchanged (s : GraphState) (p c : Nat)
    (_hpc : p ≠ c) (hedge : p ∈ (getNode s c).parents) :
    add_child s p c = .error ("AssertionError: already a parent", s) := by
  unfold add_child
  rw [if_pos hedge]

/-- Witness for C6: in the concrete graph `c = f(a)` (node 1 consuming node
0), repeating `c.add_child(a)` fails and returns the state untouched. -/
theorem c6_witness :
    (1 : Nat) ≠ 0 ∧ 1 ∈ (getNode oneEdgeState 0).parents ∧
    add_child oneEdgeState 1 0 = .error ("AssertionError: already a parent", oneEdgeState) :=
  ⟨by decide, by decide,
    c6_duplicate_edge_rejected_unchanged oneEdgeState 1 0 (by decide) (by decide)⟩

/-! ### Helper lemmas for reasoning about the heap and the registry dict -/

theorem getD_append_length {α : Type} (l : List α) (a d : α) :
    (l ++ [a]).getD l.length d = a := by
  induction l with
  | nil => rfl
  | cons x xs ih => simp [ih]

theorem getD_set_self_lt {α : Type} (l : List α) (i : Nat) (a d : α) (h : i < l.length) :
    (l.set i a).getD i d = a := by
  induction l generalizing i with
  | nil => simp at h
  | cons x xs ih =>
    cases i with
    | zero => rfl
    | succ n => simpa using ih n (by simpa using h)

theorem getNode_setNode_self (s : GraphState) (i : Nat) (r : NodeRec) (h : i < s.heap.length) :
    getNode (setNode s i r) i = r :=
  getD_set_self_lt s.heap i r default h

theorem setNode_reg (s : GraphState) (i : Nat) (r : NodeRec) : (setNode s i r).reg = s.reg := rfl

theorem dictSet_fresh (d : List (String × Nat)) (k : String) (v : Nat)
    (h : d.lookup k = none) : dictSet d k v = d ++ [(k, v)] := by
  unfold dictSet
  rw [h]
  rfl

/-- `storeNode` unfolded: the stored state, explicitly. -/
theorem storeNode_eq (s : GraphState) (id : Nat) :
    storeNode s id = .ok ((), ⟨s.heap,
      ⟨dictSet s.reg.nodes (getNode s id).name id,
       ddAppend s.reg.levels (getNode s id).level id⟩⟩) := rfl

/-- `register` on a well-formed, non-colliding name just stores the node. -/
theorem register_fresh (s : GraphState) (id : Nat)
    (hlen : (pySplit ':' (getNode s id).name).length = 2)
    (h0 : s.reg.nodes.lookup (getNode s id).name = none) :
    register s id = storeNode s id := by
  simp only [register, hlen, h0]
  simp

/-- `register` on a colliding well-formed name renames the node by a single
suffix increment and then stores it under the new name. -/
theorem register_collision (s : GraphState) (id : Nat) (base suf : String) (k : Nat)
    (hsplit : pySplit ':' (getNode s id).name = [base, suf])
    (hk : pyParseNat suf = some k)
    (hcol : (s.reg.nodes.lookup (getNode s id).name).isSome = true) :
    register s id = storeNode
      (setNode s id { getNode s id with name := base ++ ":" ++ toString (k + 1) }) id := by
  simp only [register, hsplit, hk, hcol]
  simp

/-- C5 (amended): `Registry.register` increments the numeric suffix exactly
once on a collision. Hence for up to two registrations per base name the
entries are distinct and nothing is overwritten: a node named `b:0`
registers as `b:0` when that key is free, and as `b:1` when `b:0` is taken
but `b:1` is free — in both cases the entry is appended and every existing
entry is preserved. (A third node with the same base collides again after
the single increment and overwrites `b:1`, see the counterexample.) -/
theorem c5_register_increments_suffix_once (s : GraphState) (id : Nat) (b : String)
    (hname : (getNode s id).name = b ++ ":0")
    (hsplit : pySplit ':' (b ++ ":0") = [b, "0"])
    (hid : id < s.heap.length) :
    (s.reg.nodes.lookup (b ++ ":0") = none →
      ∃ s2, register s id = .ok ((), s2) ∧
        s2.reg.nodes = s.reg.nodes ++ [(b ++ ":0", id)] ∧
        (getNode s2 id).name = b ++ ":0") ∧
    ((s.reg.nodes.lookup (b ++ ":0")).isSome = true →
      s.reg.nodes.lookup (b ++ ":1") = none →
      ∃ s2, register s id = .ok ((), s2) ∧
        s2.reg.nodes = s.reg.nodes ++ [(b ++ ":1", id)] ∧
        (getNode s2 id).name = b ++ ":1") := by
  constructor
  · intro h0
    have hreg : register s id = storeNode s id :=
      register_fresh s id (by rw [hname, hsplit]; rfl) (by rw [hname]; exact h0)
    refine ⟨_, hreg.trans (storeNode_eq s id), ?_, ?_⟩
    · show dictSet s.reg.nodes (getNode s id).name id = _
      rw [hname, dictSet_fresh _ _ _ h0]
    · show (getNode s id).name = _
      exact hname
  · intro h0 h1
    have hname2 :
        (getNode (setNode s id { getNode s id with name := b ++ ":" ++ toString (0 + 1) }) id).name
          = b ++ ":1" := by
      rw [getNode_setNode_self s id _ hid]
      show b ++ ":" ++ toString (0 + 1) = b ++ ":1"
      rw [String.append_assoc]
      exact congrArg (fun t => b ++ t) (by decide)
    have hreg := register_collision s id b "0" 0
      (by rw [hname]; exact hsplit) (by decide) (by rw [hname]; exact h0)
    refine ⟨_, hreg.trans (storeNode_eq _ id), ?_, ?_⟩
    · simp only [hname2, setNode_reg]
      rw [dictSet_fresh _ _ _ h1]
    · exact hname2

/-- A leaf-node record named `x:0`, used by concrete witnesses. -/
def regLeafX : NodeRec :=
  ⟨"x:0", 0, [], [], .pydict, false, none, [], []⟩

/-- A state holding one unregistered node `x:0` (fresh registry). -/
def c5FreshState : GraphState := ⟨[regLeafX], ⟨[], []⟩⟩

/-- A state where `x:0` is already registered and a second node named `x:0`
(id 1) is about to be registered. -/
def c5CollideState : GraphState := ⟨[regLeafX, regLeafX], ⟨[("x:0", 0)], [(0, [0])]⟩⟩

/-- Witness for C5 (amended): concrete registrations through both branches —
a fresh `x:0` is appended as `x:0`, and a colliding `x:0` is renamed to and
appended as `x:1`, preserving the existing entry. -/
theorem c5_register_witness :
    (∃ s2, register c5FreshState 0 = .ok ((), s2) ∧
      s2.reg.nodes = c5FreshState.reg.nodes ++ [("x" ++ ":0", 0)] ∧
      (getNode s2 0).name = "x" ++ ":0") ∧
    (∃ s2, register c5CollideState 1 = .ok ((), s2) ∧
      s2.reg.nodes = c5CollideState.reg.nodes ++ [("x" ++ ":1", 1)] ∧
      (getNode s2 1).name = "x" ++ ":1") :=
  ⟨(c5_register_increments_suffix_once c5FreshState 0 "x"
      (by decide) (by decide) (by decide)).1 (by decide),
   (c5_register_increments_suffix_once c5CollideState 1 "x"
      (by decide) (by decide) (by decide)).2 (by decide) (by decide)⟩

theorem getNode_push (h : List NodeRec) (r : NodeRec) (rg : Registry) :
    getNode ⟨h ++ [r], rg⟩ h.length = r :=
  getD_append_length h r default


theorem abstractNodeInit_ok (s : GraphState) (v : InitValue) (nm : Option String)
    (b suf : String) (k : Nat)
    (hsplit : pySplit ':' (initName s v nm) = [b, suf])
    (hparse : pyParseNat suf = some k) :
    ∃ s2, abstractNodeInit s v nm = .ok (s.heap.length, s2) ∧
      s.heap.length < s2.heap.length ∧
      (getNode s2 s.heap.length).level = 0 ∧
      (getNode s2 s.heap.length).parents = [] ∧
      (getNode s2 s.heap.length).children = [] := by
  have hs1 : getNode
      { s with heap := s.heap ++ [⟨initName s v nm, 0, [], [], initData s v, false, none, [], []⟩] }
      s.heap.length
      = ⟨initName s v nm, 0, [], [], initData s v, false, none, [], []⟩ :=
    getD_append_length s.heap _ default
  simp only [abstractNodeInit]
  by_cases hco :
      ((s.reg.nodes.lookup
        (getNode { s with heap := s.heap ++ [⟨initName s v nm, 0, [], [], initData s v, false, none, [], []⟩] }
          s.heap.length).name).isSome) = true
  · have hreg := (register_collision _ s.heap.length b suf k
      (by rw [hs1]; exact hsplit) hparse hco).trans (storeNode_eq _ _)
    rw [hreg]
    refine ⟨_, rfl, ?_, ?_, ?_, ?_⟩
    · simp [setNode]
    all_goals simp [setNode, getNode, getD_set_self_lt, getD_append_length]
  · have h0 := Option.not_isSome_iff_eq_none.mp hco
    have hreg := (register_fresh _ s.heap.length
      (by rw [hs1]; rw [hsplit]; rfl) h0).trans (storeNode_eq _ _)
    rw [hreg]
    refine ⟨_, rfl, ?_, ?_, ?_, ?_⟩
    · simp
    all_goals simp [getNode, getD_append_length]

theorem c10_node_init_leaf (s : GraphState) (v : InitValue) (nm : Option String)
    (b suf : String) (k : Nat)
    (hsplit : pySplit ':' (initName s v nm) = [b, suf])
    (hparse : pyParseNat suf = some k) :
    (isValidNodeValue v = false →
      nodeInit s v nm false =
        .error ("AssertionError: Value must be a string, a dict, or a Node.", s)) ∧
    (isValidNodeValue v = true →
      ∃ id s2, nodeInit s v nm false = .ok (id, s2) ∧
        (getNode s2 id).level = 0 ∧ (getNode s2 id).parents = [] ∧
        (getNode s2 id).children = []) := by
  constructor
  · intro hv
    simp [nodeInit, hv]
  · intro hv
    obtain ⟨s2, hok, hlt, hlv, hpar, hch⟩ := abstractNodeInit_ok s v nm b suf k hsplit hparse
    have hfin : getNode (setNode s2 s.heap.length
        { getNode s2 s.heap.length with trainable := false }) s.heap.length
        = { getNode s2 s.heap.length with trainable := false } :=
      getNode_setNode_self s2 s.heap.length _ hlt
    refine ⟨s.heap.length,
      setNode s2 s.heap.length { getNode s2 s.heap.length with trainable := false },
      ?_, ?_, ?_, ?_⟩
    · simp only [nodeInit, hv, if_true, hok]
    · rw [hfin]
      exact hlv
    · rw [hfin]
      exact hpar
    · rw [hfin]
      exact hch

/-- Witness for C10: wrapping the int `3` is rejected with the state
untouched; wrapping the string `"h"` yields a leaf with level 0 and empty
adjacency. -/
theorem c10_witness :
    (nodeInit emptyState (.val (.pyint 3)) none false =
      .error ("AssertionError: Value must be a string, a dict, or a Node.", emptyState)) ∧
    (∃ id s2, nodeInit emptyState (.val (.pystr "h")) none false = .ok (id, s2) ∧
      (getNode s2 id).level = 0 ∧ (getNode s2 id).parents = [] ∧
      (getNode s2 id).children = []) :=
  ⟨(c10_node_init_leaf emptyState (.val (.pyint 3)) none "int" "0" 0
      (by decide) (by decide)).1 (by decide),
   (c10_node_init_leaf emptyState (.val (.pystr "h")) none "str" "0" 0
      (by decide) (by decide)).2 (by decide)⟩

/-! ### Propagators (`autogen/trace/propagators/propagators.py`)

`propagators.py` reads three things from a `MessageNode` that the
`nodes.py` under verification does not define: a `feedback` mapping (from a
feedback source — a node, or the reserved key `"user"` — to a list of
feedback values), a `description` string (the `mapping` passed at
construction), and it imports `get_op_name` from `autogen.trace.nodes`,
which does not exist there. These parts are modelled from the spec
(§3 "feedback", §4.4, §6 "Operator-name extraction"). -/

/-- The feedback values the `SumPropagator` distinguishes: Python strings
(reduced by `"".join`) and numbers (reduced by `sum`), per its
`isinstance(feedback_list[0], str)` test. -/
inductive FVal where
  | fint (n : Int)
  | fstr (s : String)
deriving DecidableEq, Repr

/-- Modelled from the spec: the propagation-facing view of a `MessageNode`.
`parents` is the list of nodes (by name) that receive the propagated
feedback — per §4.4's postcondition these are the node's arguments
("returns a mapping whose key set is exactly `child.parents` (every
argument must receive something)"). `feedback` is the mapping of §3: from
a producing node's name, or the reserved key `"user"`, to a list of
feedback values. `description` is the node's `mapping` string. -/
structure FNode where
  name : String
  level : Nat
  parents : List String
  feedback : List (String × List FVal)
  description : String
  data : FVal
deriving Repr

/-- Modelled from the spec (§6): "the propagator expects the node's
`mapping` description string to begin with a bracketed token, e.g.
`\x5badd\x5d ...`, used as the override-registration key" — extract the text
between the leading `[` and the first following `]`. -/
def get_op_name (description : String) : String :=
  String.mk ((((description.toList).dropWhile (fun c => c != '[')).drop 1).takeWhile
    (fun c => c != ']'))

/-- Python's `type(a) == type(b)` on the two kinds of feedback values. -/
def sameType : FVal → FVal → Bool
  | .fint _, .fint _ => true
  | .fstr _, .fstr _ => true
  | _, _ => false

def fvalStr : FVal → String
  | .fstr s => s
  | .fint _ => ""

def fvalInt : FVal → Int
  | .fint n => n
  | .fstr _ => 0

/-- The comprehension `[v[0] for k, v in child.feedback.items()]`; `v[0]`
raises `IndexError` on an empty list. -/
def firstElems : List (String × List FVal) → Except String (List FVal)
  | [] => .ok []
  | (_, []) :: _ => .error "IndexError: list index out of range"
  | (_, v :: _) :: rest =>
    match firstElems rest with
    | .ok l => .ok (v :: l)
    | .error e => .error e

/-- The `feedback` value computed by `SumPropagator._propagate`: the single
`"user"` entry if present (asserting it is the only feedback and a
singleton), else the reduction of all children's first feedback entries —
`"".join` for strings, `sum` for numbers — after asserting all entries
share one runtime type. -/
def sumFeedbackValue (child : FNode) : Except String FVal :=
  if (child.feedback.lookup "user").isSome then
    if child.feedback.length = 1 then
      match child.feedback.lookup "user" with
      | some us =>
        if us.length = 1 then
          match us with
          | u :: _ => .ok u
          | [] => .error "IndexError: list index out of range"
        else .error "AssertionError"
      | none => .error "unreachable"
    else .error "user feedback should be the only feedback"
  else
    match firstElems child.feedback with
    | .error e => .error e
    | .ok [] => .error "AssertionError: len(feedback_list) > 0"
    | .ok (f0 :: fs) =>
      if (f0 :: fs).all (fun f => sameType f0 f) then
        match f0 with
        | .fstr _ => .ok (.fstr (String.join ((f0 :: fs).map fvalStr)))
        | .fint _ => .ok (.fint (((f0 :: fs).map fvalInt).foldl (fun a n => a + n) 0))
      else .error "error in propagate"

/-- `SumPropagator._propagate`: compute the single feedback value and
broadcast it identically to every parent
(`{parent: feedback for parent in child.parents}`). -/
def sumPropagate (child : FNode) : Except String (List (String × FVal)) :=
  match sumFeedbackValue child with
  | .ok feedback => .ok (child.parents.map (fun p => (p, feedback)))
  | .error e => .error e

/-- A propagate function, as registered in `Propagator.override`. -/
abbrev PropFn := FNode → Except String (List (String × FVal))

/-- `Propagator.register(operator_name, propagate_function)`:
`self.override[operator_name] = propagate_function` (Python dict
assignment: overwrite in place or append). -/
def registerOverride (ov : List (String × PropFn)) (operator_name : String)
    (f : PropFn) : List (String × PropFn) :=
  if (ov.lookup operator_name).isSome then
    ov.map (fun p => if p.1 = operator_name then (p.1, f) else p)
  else ov ++ [(operator_name, f)]

/-- `Propagator.propagate`: dispatch on `get_op_name(child.description)` to
a registered override, else fall back to the default `_propagate`. -/
def propagatorPropagate (ov : List (String × PropFn)) (dflt : PropFn)
    (child : FNode) : Except String (List (String × FVal)) :=
  match ov.lookup (get_op_name child.description) with
  | some f => f child
  | none => dflt child

/-- `AbstractPropagator.__call__`: asserts every feedback entry has at most
one element, runs `propagate`, and asserts the result covers all parents. -/
def abstractCall (ov : List (String × PropFn)) (dflt : PropFn)
    (child : FNode) : Except String (List (String × FVal)) :=
  if child.feedback.all (fun kv => decide (kv.2.length ≤ 1)) then
    match propagatorPropagate ov dflt child with
    | .ok pf =>
      if child.parents.all (fun p => (pf.lookup p).isSome) then .ok pf
      else .error "AssertionError: propagated feedback must cover all parents"
    | .error e => .error e
  else .error "AssertionError: all MessageNode feedback should be at most length 1"

/-- Leaf `a` with data `2` in the broadcast example. -/
def aNode : FNode := ⟨"a:0", 0, [], [], "", .fint 2⟩

/-- Leaf `b` with data `3` in the broadcast example. -/
def bNode : FNode := ⟨"b:0", 0, [], [], "", .fint 3⟩

/-- The operation node `c = add(a, b)` (level 1, arguments `a` and `b`),
seeded with the single `"user"` feedback entry `5`. -/
def cNode : FNode :=
  ⟨"add:0", 1, ["a:0", "b:0"], [("user", [.fint 5])],
   "[add] This is an add operator of x and y.", .fint 5⟩

/-- C1: on the graph `c = add(a, b)` (leaves `a = 2`, `b = 3`, recorded as
`c`'s arguments), with `c` seeded with the single reserved-key `"user"`
feedback `5`, running the `SumPropagator` (full `__call__`, fresh override
table) forwards the user value unchanged, delivering exactly `5` to `a`
and exactly `5` to `b`. -/
theorem c1_sum_broadcast :
    cNode.parents = [aNode.name, bNode.name] ∧
    abstractCall [] sumPropagate cNode = .ok [(aNode.name, .fint 5), (bNode.name, .fint 5)] ∧
    ((abstractCall [] sumPropagate cNode).toOption.getD []).lookup aNode.name = some (.fint 5) ∧
    ((abstractCall [] sumPropagate cNode).toOption.getD []).lookup bNode.name = some (.fint 5) := by
  decide

/-- Operation node `e = f1(d)` seeded with user feedback `"A"`. -/
def eNode : FNode := ⟨"e:0", 2, ["d:0"], [("user", [.fstr "A"])], "[f1] op f1 of d.", .fstr "A"⟩

/-- Operation node `g = f2(d)` seeded with user feedback `"A"`. -/
def gNode : FNode := ⟨"g:0", 2, ["d:0"], [("user", [.fstr "A"])], "[f2] op f2 of d.", .fstr "A"⟩

/-- Operation node `g` seeded with user feedback `"B"` instead. -/
def gNodeB : FNode := ⟨"g:0", 2, ["d:0"], [("user", [.fstr "B"])], "[f2] op f2 of d.", .fstr "B"⟩

/-- `d` (an operation node over a leaf `x`) after both consumers `e` and
`g` deposited the feedback `"A"` that propagating them produced. -/
def dNodeAA : FNode :=
  ⟨"d:0", 1, ["x:0"], [("e:0", [.fstr "A"]), ("g:0", [.fstr "A"])], "[f0] op f0 of x.", .fstr "v"⟩

/-- `d` after `e` deposited `"A"` and `g` deposited `"B"` (unequal seeds). -/
def dNodeAB : FNode :=
  ⟨"d:0", 1, ["x:0"], [("e:0", [.fstr "A"]), ("g:0", [.fstr "B"])], "[f0] op f0 of x.", .fstr "v"⟩

/-- `d` after one consumer deposited a string and the other a number. -/
def dNodeMixed : FNode :=
  ⟨"d:0", 1, ["x:0"], [("e:0", [.fstr "A"]), ("g:0", [.fint 5])], "[f0] op f0 of x.", .fstr "v"⟩

/-- C2 counterexample: the claim requires the propagation to fail when the
two seeds are unequal strings, but `SumPropagator` only checks that the
feedback values share one runtime type — with seeds `"A"` and `"B"` the
propagation of `d` succeeds and concatenates them to `"AB"` instead of
failing. -/
theorem c2_unequal_strings_do_not_fail :
    abstractCall [] sumPropagate gNodeB = .ok [("d:0", .fstr "B")] ∧
    abstractCall [] sumPropagate dNodeAB = .ok [("x:0", .fstr "AB")] := by
  decide

/-- C2 (amended): propagating `e` and `g` each delivers `"A"` to `d`; with
those two deposits, propagating `d` reduces them by string concatenation
to the combined feedback `"AA"` (broadcast to `d`'s parents). Unequal
string seeds do not fail but concatenate in consumer order (`"AB"`);
failure occurs exactly when the deposited values have different runtime
types. -/
theorem c2_fanin_concatenation :
    abstractCall [] sumPropagate eNode = .ok [("d:0", .fstr "A")] ∧
    abstractCall [] sumPropagate gNode = .ok [("d:0", .fstr "A")] ∧
    abstractCall [] sumPropagate dNodeAA = .ok [("x:0", .fstr "AA")] ∧
    abstractCall [] sumPropagate dNodeMixed = .error "error in propagate" := by
  decide

theorem lookup_map_overwrite {β : Type} (d : List (String × β)) (k : String) (v : β)
    (h : (d.lookup k).isSome = true) :
    (d.map (fun p => if p.1 = k then (p.1, v) else p)).lookup k = some v := by
  induction d with
  | nil => simp [List.lookup] at h
  | cons pr ds ih =>
    obtain ⟨a, w⟩ := pr
    rw [List.map_cons]
    by_cases hp : a = k
    · subst hp
      rw [show (if (a, w).1 = a then ((a, w).1, v) else (a, w)) = (a, v) from by simp]
      simp [List.lookup]
    · have hk : (k == a) = false := by
        simp [Ne.symm hp]
      simp only [List.lookup, hk] at h
      rw [show (if (a, w).1 = k then ((a, w).1, v) else (a, w)) = (a, w) from by simp [hp]]
      simp [List.lookup, hk, ih h]

theorem lookup_append_right {β : Type} (d : List (String × β)) (k : String) (v : β)
    (h : d.lookup k = none) :
    (d ++ [(k, v)]).lookup k = some v := by
  induction d with
  | nil => simp [List.lookup]
  | cons pr ds ih =>
    obtain ⟨a, w⟩ := pr
    have hk : (k == a) = false := by
      by_contra hc
      have hkk : (k == a) = true := by simpa using hc
      simp [List.lookup, hkk] at h
    simp only [List.lookup, hk] at h
    simp only [List.cons_append, List.lookup, hk]
    exact ih h

theorem lookup_registerOverride_self (ov : List (String × PropFn)) (k : String) (f : PropFn) :
    (registerOverride ov k f).lookup k = some f := by
  unfold registerOverride
  by_cases h : (ov.lookup k).isSome = true
  · rw [if_pos h]
    exact lookup_map_overwrite ov k f h
  · rw [if_neg h]
    exact lookup_append_right ov k f (Option.not_isSome_iff_eq_none.mp h)

theorem takeWhile_append_stop {α : Type} (p : α → Bool) (l1 : List α) (x : α) (l2 : List α)
    (h1 : ∀ a ∈ l1, p a = true) (hx : p x = false) :
    (l1 ++ x :: l2).takeWhile p = l1 := by
  induction l1 with
  | nil => simp [List.takeWhile_cons, hx]
  | cons a as ih =>
    have hpa := h1 a (by simp)
    simp [List.takeWhile_cons, hpa, ih (fun b hb => h1 b (by simp [hb]))]

/-- C7: registering a propagate function under the operator name
`"subtract"` makes `Propagator.propagate` invoke it — in place of the
default `_propagate` — on any node whose description begins with the
bracketed token `[subtract]`. -/
theorem c7_override_dispatch (ov : List (String × PropFn)) (f dflt : PropFn)
    (child : FNode) (rest : List Char)
    (hd : child.description = String.mk ('[' :: ("subtract".toList ++ ']' :: rest))) :
    propagatorPropagate (registerOverride ov "subtract" f) dflt child = f child := by
  have hop : get_op_name child.description = "subtract" := by
    rw [hd]
    show String.mk ((((('[' :: ("subtract".toList ++ ']' :: rest))).dropWhile
      (fun c => c != '[')).drop 1).takeWhile (fun c => c != ']')) = "subtract"
    rw [show ('[' :: ("subtract".toList ++ ']' :: rest)).dropWhile (fun c => c != '[')
      = '[' :: ("subtract".toList ++ ']' :: rest) from by simp [List.dropWhile_cons]]
    rw [show (('[' :: ("subtract".toList ++ ']' :: rest)).drop 1)
      = "subtract".toList ++ ']' :: rest from rfl]
    rw [takeWhile_append_stop _ _ _ _ (by decide) (by decide)]
    rfl
  unfold propagatorPropagate
  rw [hop, lookup_registerOverride_self]

/-- A node whose description carries the `[subtract]` token, seeded with
user feedback. -/
def c7Child : FNode :=
  ⟨"subtract:0", 1, ["x:0", "y:0"], [("user", [.fint 1])],
   "[subtract] This is a subtract operator of x and y.", .fint 0⟩

/-- A custom propagate function distinguishable from the default. -/
def c7Fn : PropFn := fun child => .ok (child.parents.map (fun p => (p, .fint 7)))

/-- Witness for C7: on a fresh `Propagator` with `c7Fn` registered under
`"subtract"`, propagating the `[subtract]`-described node runs `c7Fn`, not
the default `SumPropagator._propagate`. -/
theorem c7_witness :
    propagatorPropagate (registerOverride [] "subtract" c7Fn) sumPropagate c7Child
      = c7Fn c7Child :=
  c7_override_dispatch [] c7Fn sumPropagate c7Child
    " This is a subtract operator of x and y.".toList rfl

/-! ### NodeFeedback (`autogen/trace/propagators/node_propagator.py`)

`NodeFeedback` carries `graph`, a priority list of `(level, node)` pairs,
and `user_feedback`. Its `__add__` dedups by node *name* and merges the
two sequences with `heapq.merge(..., key=lambda x: x[0])` — a stable
two-way merge by level that prefers the left operand on ties. Only a
node's name takes part, so the node component is embedded as just its
name. -/

structure PN where
  name : String
deriving DecidableEq, Repr

structure NodeFeedback where
  graph : List (Nat × PN)
  user_feedback : Option String
deriving DecidableEq, Repr

/-- Python's `x or y` on the user-feedback slot (`None` and the empty
string are falsy). -/
def pyOrStr : Option String → Option String → Option String
  | some s, b => if s = "" then b else some s
  | none, b => b

/-- `heapq.merge(a, b, key=lambda x: x[0])` as a fuel-based structural
recursion (so that it evaluates by `decide`); `mergeByLevel` below supplies
enough fuel for the fuel case never to be hit. -/
def mergeFuel : Nat → List (Nat × PN) → List (Nat × PN) → List (Nat × PN)
  | 0, a, b => a ++ b
  | _ + 1, [], b => b
  | _ + 1, x :: xs, [] => x :: xs
  | n + 1, x :: xs, y :: ys =>
    if x.1 ≤ y.1 then x :: mergeFuel n xs (y :: ys)
    else y :: mergeFuel n (x :: xs) ys

/-- `heapq.merge` by level: stable, left-preferring on equal keys. -/
def mergeByLevel (a b : List (Nat × PN)) : List (Nat × PN) :=
  mergeFuel (a.length + b.length) a b

/-- The comparison `mergeByLevel` uses, as a Bool relation for
`List.merge`. -/
def levelLE (x y : Nat × PN) : Bool := decide (x.1 ≤ y.1)

theorem mergeFuel_eq_merge : ∀ (n : Nat) (a b : List (Nat × PN)),
    a.length + b.length ≤ n → mergeFuel n a b = List.merge a b levelLE := by
  intro n
  induction n with
  | zero =>
    intro a b h
    cases a <;> cases b <;> simp_all [mergeFuel, List.merge]
  | succ n ih =>
    intro a b h
    match a, b with
    | [], b => simp [mergeFuel]
    | x :: xs, [] => simp [mergeFuel]
    | x :: xs, y :: ys =>
      simp only [mergeFuel]
      rw [List.cons_merge_cons]
      by_cases hxy : levelLE x y = true
      · rw [if_pos (by simpa [levelLE] using hxy), if_pos hxy]
        rw [ih xs (y :: ys) (by simp at h ⊢; omega)]
      · rw [if_neg (by simpa [levelLE] using hxy), if_neg hxy]
        rw [ih (x :: xs) ys (by simp at h ⊢; omega)]

theorem mergeByLevel_eq_merge (a b : List (Nat × PN)) :
    mergeByLevel a b = List.merge a b levelLE :=
  mergeFuel_eq_merge (a.length + b.length) a b le_rfl

/-- `NodeFeedback.__add__`: asserts at least one user feedback is present,
takes the truthy one (asserting equality when both are present), drops
from the left node sequence every node whose name already occurs on the
right, and merges what remains with the right sequence by level. -/
def NodeFeedback.add (self other : NodeFeedback) : Except String NodeFeedback :=
  if self.user_feedback.isNone ∧ other.user_feedback.isNone then
    .error "One of the user feedback should not be None."
  else
    match
      (if self.user_feedback.isNone ∨ other.user_feedback.isNone then
        .ok (pyOrStr self.user_feedback other.user_feedback)
      else if self.user_feedback = other.user_feedback then
        .ok self.user_feedback
      else
        .error "user feedback should be the same for all children" :
          Except String (Option String)) with
    | .error e => .error e
    | .ok user_feedback =>
      let other_names := other.graph.map (fun n => n.2.name)
      let complement := self.graph.filter (fun x => !(other_names.contains x.2.name))
      .ok ⟨mergeByLevel complement other.graph, user_feedback⟩

/-- Node sequence sorted by ascending level. -/
def LevelSorted (g : List (Nat × PN)) : Prop :=
  g.Pairwise (fun p q => p.1 ≤ q.1)

/-- Node sequence without duplicate node names. -/
def NoDupNames (g : List (Nat × PN)) : Prop :=
  (g.map (fun p => p.2.name)).Nodup

instance (g : List (Nat × PN)) : Decidable (LevelSorted g) := by
  unfold LevelSorted
  infer_instance

instance (g : List (Nat × PN)) : Decidable (NoDupNames g) := by
  unfold NoDupNames
  infer_instance

/-- A `NodeFeedback` whose node sequence is NOT sorted by level. -/
def c8Bad : NodeFeedback := ⟨[(1, ⟨"n1"⟩), (0, ⟨"n2"⟩)], some "u"⟩

/-- C8 counterexample: the claim quantifies over every `NodeFeedback` with
non-null user feedback, but `__add__` merely returns the right operand's
sequence when the name sets coincide — for a feedback whose own sequence
is not level-sorted, `f + f` succeeds and returns that unsorted sequence
unchanged. -/
theorem c8_self_merge_not_always_sorted :
    NodeFeedback.add c8Bad c8Bad = .ok c8Bad ∧ ¬ LevelSorted c8Bad.graph := by
  constructor
  · decide
  · intro hs
    exact absurd (List.rel_of_pairwise_cons hs (List.mem_singleton_self _)) (by omega)

/-- C8 (amended): for a `NodeFeedback` with non-null user feedback whose
node sequence has no duplicate names and is sorted by ascending level — as
every propagator-produced feedback is — merging it with itself returns it
unchanged (the left copy is entirely dropped as a duplicate and the merge
of `[]` with the right copy is the right copy), so the result has no
duplicate names and keeps ascending-level order. -/
theorem c8_merge_self_identity (f : NodeFeedback) (hu : f.user_feedback ≠ none)
    (hs : LevelSorted f.graph) (hd : NoDupNames f.graph) :
    ∃ g, NodeFeedback.add f f = .ok g ∧ g = f ∧
      LevelSorted g.graph ∧ NoDupNames g.graph := by
  obtain ⟨u, hu'⟩ := Option.ne_none_iff_exists'.mp hu
  have hcomp : f.graph.filter
      (fun x => !((f.graph.map (fun n => n.2.name)).contains x.2.name)) = [] := by
    apply List.filter_eq_nil_iff.mpr
    intro a ha
    simp only [Bool.not_eq_true', Bool.not_eq_false]
    exact List.elem_eq_true_of_mem (List.mem_map_of_mem _ ha)
  have hadd : NodeFeedback.add f f = .ok f := by
    simp only [NodeFeedback.add, hu', hcomp]
    simp [mergeByLevel_eq_merge]
    rw [← hu']
  exact ⟨f, hadd, rfl, hs, hd⟩

theorem merge_levelLE_comm : ∀ (a b : List (Nat × PN)),
    (∀ p ∈ a, ∀ q ∈ b, p.1 ≠ q.1) →
    List.merge a b levelLE = List.merge b a levelLE := by
  intro a
  induction a with
  | nil => intro b _; simp
  | cons x xs iha =>
    intro b
    induction b with
    | nil => intro _; simp
    | cons y ys ihb =>
      intro hab
      have hxy : x.1 ≠ y.1 := hab x (by simp) y (by simp)
      by_cases h : x.1 ≤ y.1
      · have h2 : ¬ y.1 ≤ x.1 := by omega
        rw [List.cons_merge_cons, List.cons_merge_cons]
        rw [if_pos (by simp [levelLE, h]), if_neg (by simp [levelLE, h2])]
        rw [iha (y :: ys) (fun p hp q hq => hab p (by simp [hp]) q hq)]
      · have h2 : y.1 ≤ x.1 := by omega
        rw [List.cons_merge_cons, List.cons_merge_cons]
        rw [if_neg (by simp [levelLE, h]), if_pos (by simp [levelLE, h2])]
        rw [ihb (fun p hp q hq => hab p hp q (by simp [hq]))]

theorem levelSorted_to_bool {g : List (Nat × PN)} (h : LevelSorted g) :
    g.Pairwise (fun p q => levelLE p q = true) := by
  unfold LevelSorted at h
  induction h with
  | nil => exact List.Pairwise.nil
  | cons hhead _ ih =>
    exact List.Pairwise.cons (fun q hq => decide_eq_true (hhead q hq)) ih

theorem levelSorted_of_bool {g : List (Nat × PN)}
    (h : g.Pairwise (fun p q => levelLE p q = true)) : LevelSorted g := by
  unfold LevelSorted
  induction h with
  | nil => exact List.Pairwise.nil
  | cons hhead _ ih =>
    exact List.Pairwise.cons (fun q hq => of_decide_eq_true (hhead q hq)) ih

theorem merge_levelLE_sorted (a b : List (Nat × PN))
    (ha : LevelSorted a) (hb : LevelSorted b) :
    LevelSorted (List.merge a b levelLE) := by
  refine levelSorted_of_bool ?_
  exact @List.sorted_merge (Nat × PN) levelLE
    (fun p q r h1 h2 =>
      decide_eq_true (Nat.le_trans (of_decide_eq_true h1) (of_decide_eq_true h2)))
    (fun p q => by
      rcases Nat.le_total p.1 q.1 with h | h
      · simp [levelLE, h]
      · simp [levelLE, h])
    a b (levelSorted_to_bool ha) (levelSorted_to_bool hb)

/-- User-feedback compatibility under which `__add__` commutes: equal
non-null values, or exactly one null with the other a non-empty (truthy)
string. -/
def UserCompat (x y : Option String) : Prop :=
  (x = y ∧ x ≠ none) ∨
  (x = none ∧ ∃ s, y = some s ∧ s ≠ "") ∨
  (y = none ∧ ∃ s, x = some s ∧ s ≠ "")

/-- C9 (amended): for feedbacks with disjoint node-name sets, compatible
user feedbacks (equal and non-null, or exactly one null with the other a
non-empty string), level-sorted node sequences, and no level occurring in
both sequences, the combination is commutative: `x + y = y + x`, the
result's node sequence is sorted by ascending level, and its names are the
deduplicated union (a permutation of both sides' names concatenated).
When some level occurs on both sides the two orders contain the same
entries but may differ in tie order, see the counterexample. -/
theorem c9_add_comm (x y : NodeFeedback)
    (hn : ∀ p ∈ x.graph, ∀ q ∈ y.graph, p.2.name ≠ q.2.name)
    (hl : ∀ p ∈ x.graph, ∀ q ∈ y.graph, p.1 ≠ q.1)
    (hu : UserCompat x.user_feedback y.user_feedback)
    (hsx : LevelSorted x.graph) (hsy : LevelSorted y.graph) :
    NodeFeedback.add x y = NodeFeedback.add y x ∧
    ∃ r, NodeFeedback.add x y = .ok r ∧ LevelSorted r.graph ∧
      (r.graph.map (fun p => p.2.name)).Perm
        (x.graph.map (fun p => p.2.name) ++ y.graph.map (fun p => p.2.name)) := by
  have hcx : x.graph.filter
      (fun p => !((y.graph.map (fun n => n.2.name)).contains p.2.name)) = x.graph := by
    apply List.filter_eq_self.mpr
    intro a ha
    have hnotin : a.2.name ∉ y.graph.map (fun n => n.2.name) := by
      intro hmem
      obtain ⟨q, hq, hqe⟩ := List.mem_map.mp hmem
      exact hn a ha q hq hqe.symm
    simp [List.contains, List.elem_eq_mem, hnotin]
  have hcy : y.graph.filter
      (fun p => !((x.graph.map (fun n => n.2.name)).contains p.2.name)) = y.graph := by
    apply List.filter_eq_self.mpr
    intro a ha
    have hnotin : a.2.name ∉ x.graph.map (fun n => n.2.name) := by
      intro hmem
      obtain ⟨q, hq, hqe⟩ := List.mem_map.mp hmem
      exact hn q hq a ha hqe
    simp [List.contains, List.elem_eq_mem, hnotin]
  have hg : mergeByLevel y.graph x.graph = mergeByLevel x.graph y.graph := by
    rw [mergeByLevel_eq_merge, mergeByLevel_eq_merge]
    exact (merge_levelLE_comm x.graph y.graph hl).symm
  have key : ∃ uv, NodeFeedback.add x y = .ok ⟨mergeByLevel x.graph y.graph, uv⟩ ∧
      NodeFeedback.add y x = .ok ⟨mergeByLevel y.graph x.graph, uv⟩ := by
    rcases hu with ⟨heq, hne⟩ | ⟨hxn, s, hys, hs⟩ | ⟨hyn, s, hxs, hs⟩
    · obtain ⟨u, hu'⟩ := Option.ne_none_iff_exists'.mp hne
      have hyu : y.user_feedback = some u := heq.symm.trans hu'
      refine ⟨some u, ?_, ?_⟩
      · simp only [NodeFeedback.add, hu', hyu, hcx]
        simp
      · simp only [NodeFeedback.add, hu', hyu, hcy]
        simp
    · refine ⟨some s, ?_, ?_⟩
      · simp only [NodeFeedback.add, hxn, hys, hcx]
        simp [pyOrStr]
      · simp only [NodeFeedback.add, hxn, hys, hcy]
        simp [pyOrStr, hs]
    · refine ⟨some s, ?_, ?_⟩
      · simp only [NodeFeedback.add, hyn, hxs, hcx]
        simp [pyOrStr, hs]
      · simp only [NodeFeedback.add, hyn, hxs, hcy]
        simp [pyOrStr]
  obtain ⟨uv, hxy, hyx⟩ := key
  constructor
  · rw [hxy, hyx, hg]
  · refine ⟨_, hxy, ?_, ?_⟩
    · rw [mergeByLevel_eq_merge]
      exact merge_levelLE_sorted x.graph y.graph hsx hsy
    · rw [mergeByLevel_eq_merge]
      have hperm := @List.merge_perm_append (Nat × PN) levelLE x.graph y.graph
      exact (hperm.map (fun p => p.2.name)).trans (by rw [List.map_append])

/-- A well-formed node-collecting feedback: sorted by level, no duplicate
names, non-null user feedback. -/
def c8Good : NodeFeedback := ⟨[(0, ⟨"a"⟩), (1, ⟨"b"⟩), (1, ⟨"c"⟩)], some "crit"⟩

/-- Witness for C8 (amended): a concrete sorted, duplicate-free feedback
merged with itself comes back unchanged. -/
theorem c8_witness :
    c8Good.user_feedback ≠ none ∧
    ∃ g, NodeFeedback.add c8Good c8Good = .ok g ∧ g = c8Good ∧
      LevelSorted g.graph ∧ NoDupNames g.graph :=
  ⟨by decide,
   c8_merge_self_identity c8Good (by decide) (by decide) (by decide)⟩

def c9x : NodeFeedback := ⟨[(0, ⟨"a"⟩)], some "u"⟩

def c9y : NodeFeedback := ⟨[(0, ⟨"b"⟩)], some "u"⟩

/-- C9 counterexample, concretely: `x = ⟨[(0, a)], "u"⟩` and
`y = ⟨[(0, b)], "u"⟩` have disjoint names and identical non-null user
feedback, yet `x + y` yields `[(0, a), (0, b)]` while `y + x` yields
`[(0, b), (0, a)]` — the two results differ. -/
theorem c9_merge_not_commutative :
    NodeFeedback.add c9x c9y = .ok ⟨[(0, ⟨"a"⟩), (0, ⟨"b"⟩)], some "u"⟩ ∧
    NodeFeedback.add c9y c9x = .ok ⟨[(0, ⟨"b"⟩), (0, ⟨"a"⟩)], some "u"⟩ ∧
    NodeFeedback.add c9x c9y ≠ NodeFeedback.add c9y c9x := by
  refine ⟨by decide, by decide, ?_⟩
  decide

def c9xw : NodeFeedback := ⟨[(0, ⟨"a"⟩), (2, ⟨"b"⟩)], some "u"⟩

def c9yw : NodeFeedback := ⟨[(1, ⟨"c"⟩), (3, ⟨"d"⟩)], some "u"⟩

/-- Witness for C9 (amended): two concrete feedbacks with disjoint names
and disjoint levels combine commutatively into a sorted union. -/
theorem c9_witness :
    NodeFeedback.add c9xw c9yw = NodeFeedback.add c9yw c9xw ∧
    ∃ r, NodeFeedback.add c9xw c9yw = .ok r ∧ LevelSorted r.graph ∧
      (r.graph.map (fun p => p.2.name)).Perm
        (c9xw.graph.map (fun p => p.2.name) ++ c9yw.graph.map (fun p => p.2.name)) :=
  c9_add_comm c9xw c9yw (by decide) (by decide)
    (Or.inl (by decide)) (by decide) (by decide)
